import Mathlib

/-!
Shallow embedding of the diva.js document layout engine
(`getDocumentLayout` and its helpers).

Pixel dimensions are modelled as rationals: the source carries fractional
pixel values (unrounded page dimensions) through the book-mode pairing
math, and `Math.floor` is modelled by `Int.floor` on ℚ.  The
`InvalidZoomLevel` failure (absent zoom level in a page's dimension
table) is modelled with `Except`: the JS exception propagates to the
caller exactly as the `Except` error short-circuits the computation.
-/

namespace Diva

/-- Raw per-zoom-level dimension data of a page (`pageData.w`, `pageData.h`). -/
structure PageData where
  w : ℚ
  h : ℚ
  deriving DecidableEq

/-- A page of the manifest: its `paged` attribute and its dimension table `d`,
indexed by zoom level (an absent zoom level is an out-of-range index). -/
structure Page where
  paged : Bool
  d : List PageData
  deriving DecidableEq

/-- A manifest: the ordered page sequence and the manifest-level `paged` flag. -/
structure Manifest where
  pages : List Page
  paged : Bool
  deriving DecidableEq

/-- Per-page padding (`config.padding.page`); only `top` and `left` are read. -/
structure PagePadding where
  top : ℚ
  left : ℚ
  deriving DecidableEq

/-- Per-document padding (`config.padding.document`), all four sides. -/
structure DocumentPadding where
  top : ℚ
  right : ℚ
  bottom : ℚ
  left : ℚ
  deriving DecidableEq

/-- The `config.padding` object. -/
structure PaddingConfig where
  page : PagePadding
  document : DocumentPadding
  deriving DecidableEq

/-- The configuration consumed by `getDocumentLayout`. -/
structure Config where
  inBookLayout : Bool
  verticallyOriented : Bool
  manifest : Manifest
  zoomLevel : ℕ
  padding : PaddingConfig
  deriving DecidableEq

/-- The errors a layout computation can raise.  `invalidZoomLevel` models the
failure when `manifest.pages[pageIndex].d[zoomLevel]` is absent;
`invalidPageIndex` models the failure when `pageIndex` itself is out of
range (a distinct runtime error in the source, never hit by the callers). -/
inductive LayoutError where
  | invalidZoomLevel
  | invalidPageIndex
  deriving DecidableEq

/-- A width/height pair, as returned by `getPageDimensions`. -/
structure Dims where
  width : ℚ
  height : ℚ
  deriving DecidableEq

/-- A page placed inside a layout group: page index and offsets. -/
structure PageOffset where
  index : ℕ
  top : ℚ
  left : ℚ
  deriving DecidableEq

/-- An abstract layout group: overall size plus the contained page offsets. -/
structure LayoutGroup where
  height : ℚ
  width : ℚ
  pageOffsets : List PageOffset
  deriving DecidableEq

/-- The pending left page carried through the book-mode scan
(`extend({index: index}, pageDims)` in the source). -/
structure PendingPage where
  index : ℕ
  width : ℚ
  height : ℚ
  deriving DecidableEq

/-- An absolute region in document coordinates. -/
structure Region where
  top : ℚ
  bottom : ℚ
  left : ℚ
  right : ℚ
  deriving DecidableEq

/-- A concrete placed group of the final layout. -/
structure PageGroup where
  index : ℕ
  layout : LayoutGroup
  region : Region
  padding : PagePadding
  deriving DecidableEq

/-- The final result of `getDocumentLayout`. -/
structure DocumentLayout where
  dimensions : Dims
  pageGroups : List PageGroup
  deriving DecidableEq

/-- `getPageDimensions(pageIndex, manifest, zoomLevel, options)`.
`round` models `!options || options.round` (callers pass `true` when the
options argument is omitted).  Both raw dimensions are floored
unconditionally; the `round = true` branch floors them a second time. -/
def getPageDimensions (pageIndex : ℕ) (manifest : Manifest) (zoomLevel : ℕ)
    (round : Bool) : Except LayoutError Dims :=
  match manifest.pages[pageIndex]? with
  | none => .error .invalidPageIndex
  | some page =>
    match page.d[zoomLevel]? with
    | none => .error .invalidZoomLevel
    | some pageData =>
      let width : ℚ := ⌊pageData.w⌋
      let height : ℚ := ⌊pageData.h⌋
      if round then
        .ok { width := ⌊width⌋, height := ⌊height⌋ }
      else
        .ok { width := width, height := height }

/-- The body of `getSinglesLayoutGroups`: one group per page, scanning the
page list while keeping the running page index `i`. -/
def singlesScan (manifest : Manifest) (zoomLevel : ℕ) :
    List Page → ℕ → Except LayoutError (List LayoutGroup)
  | [], _ => .ok []
  | _ :: rest, i =>
    match getPageDimensions i manifest zoomLevel true with
    | .error e => .error e
    | .ok pageDims =>
      match singlesScan manifest zoomLevel rest (i + 1) with
      | .error e => .error e
      | .ok groups =>
        .ok ({ height := pageDims.height, width := pageDims.width,
               pageOffsets := [{ index := i, top := 0, left := 0 }] } :: groups)

/-- `getSinglesLayoutGroups(manifest, zoomLevel)`. -/
def getSinglesLayoutGroups (manifest : Manifest) (zoomLevel : ℕ) :
    Except LayoutError (List LayoutGroup) :=
  singlesScan manifest zoomLevel manifest.pages 0

/-- `getFacingPageGroup(leftPage, rightPage, verticallyOriented)`. -/
def getFacingPageGroup (leftPage rightPage : PendingPage)
    (verticallyOriented : Bool) : LayoutGroup :=
  let height := max leftPage.height rightPage.height
  if verticallyOriented then
    let midWidth := max leftPage.width rightPage.width
    { height := height, width := midWidth * 2,
      pageOffsets :=
        [{ index := leftPage.index, top := 0, left := midWidth - leftPage.width },
         { index := rightPage.index, top := 0, left := midWidth }] }
  else
    { height := height, width := leftPage.width + rightPage.width,
      pageOffsets :=
        [{ index := leftPage.index, top := 0, left := 0 },
         { index := rightPage.index, top := 0, left := leftPage.width }] }

/-- The body of the book-mode scan (`manifest.pages.forEach` in
`getBookLayoutGroups`): processes the remaining pages at the running index,
carrying the optional pending left page; the final `[]` case flushes a
still-pending left page. -/
def bookScan (manifest : Manifest) (zoomLevel : ℕ) (verticallyOriented : Bool) :
    List Page → ℕ → Option PendingPage → Except LayoutError (List LayoutGroup)
  | [], _, none => .ok []
  | [], _, some leftPage =>
    .ok [{ height := leftPage.height,
           width := if verticallyOriented then leftPage.width * 2 else leftPage.width,
           pageOffsets := [{ index := leftPage.index, top := 0, left := 0 }] }]
  | page :: rest, index, leftPage =>
    if manifest.paged && !page.paged then
      bookScan manifest zoomLevel verticallyOriented rest (index + 1) leftPage
    else
      match getPageDimensions index manifest zoomLevel false with
      | .error e => .error e
      | .ok pageDims =>
        if verticallyOriented && index == 0 then
          match bookScan manifest zoomLevel verticallyOriented rest (index + 1) leftPage with
          | .error e => .error e
          | .ok groups =>
            .ok ({ height := pageDims.height, width := pageDims.width * 2,
                   pageOffsets := [{ index := 0, top := 0, left := pageDims.width }] } :: groups)
        else
          match leftPage with
          | none =>
            bookScan manifest zoomLevel verticallyOriented rest (index + 1)
              (some { index := index, width := pageDims.width, height := pageDims.height })
          | some lp =>
            match bookScan manifest zoomLevel verticallyOriented rest (index + 1) none with
            | .error e => .error e
            | .ok groups =>
              .ok (getFacingPageGroup lp
                     { index := index, width := pageDims.width, height := pageDims.height }
                     verticallyOriented :: groups)

/-- `getBookLayoutGroups(manifest, zoomLevel, verticallyOriented)`. -/
def getBookLayoutGroups (manifest : Manifest) (zoomLevel : ℕ)
    (verticallyOriented : Bool) : Except LayoutError (List LayoutGroup) :=
  bookScan manifest zoomLevel verticallyOriented manifest.pages 0 none

/-- `getExtentAlongSecondaryAxis(layouts, config)`. -/
def getExtentAlongSecondaryAxis (layouts : List LayoutGroup) (config : Config) : ℚ :=
  let secondaryPadding :=
    if config.verticallyOriented then
      config.padding.document.left + config.padding.document.right
    else
      config.padding.document.top + config.padding.document.bottom
  secondaryPadding + layouts.foldl
    (fun maxDim layout =>
      max (if config.verticallyOriented then layout.width else layout.height) maxDim) 0

/-- The body of the `layouts.forEach` loop of `getDocumentLayout`: the page
group built for `layout` at group index `index` when the running primary-axis
position is `primaryDocPosition`. -/
def placeOne (config : Config) (documentSecondaryExtent : ℚ) (layout : LayoutGroup)
    (index : ℕ) (primaryDocPosition : ℚ) : PageGroup :=
  let top :=
    if config.verticallyOriented then primaryDocPosition
    else (documentSecondaryExtent - layout.height) / 2
  let left :=
    if config.verticallyOriented then (documentSecondaryExtent - layout.width) / 2
    else primaryDocPosition
  let region : Region :=
    { top := top,
      bottom := top + config.padding.page.top + layout.height,
      left := left,
      right := left + config.padding.page.left + layout.width }
  { index := index, layout := layout, region := region,
    padding := { top := config.padding.page.top, left := config.padding.page.left } }

/-- A placed group's trailing edge along the primary axis
(`region.bottom` when vertically oriented, `region.right` otherwise). -/
def trailingEdge (config : Config) (group : PageGroup) : ℚ :=
  if config.verticallyOriented then group.region.bottom else group.region.right

/-- A placed group's leading edge along the primary axis
(`region.top` when vertically oriented, `region.left` otherwise). -/
def leadingEdge (config : Config) (group : PageGroup) : ℚ :=
  if config.verticallyOriented then group.region.top else group.region.left

/-- The `layouts.forEach` loop of `getDocumentLayout`: turns the abstract
layout groups into concrete page groups, threading the group index and the
running primary-axis position; returns the placed groups together with the
final primary position. -/
def placeGroups (config : Config) (documentSecondaryExtent : ℚ) :
    List LayoutGroup → ℕ → ℚ → List PageGroup × ℚ
  | [], _, primaryDocPosition => ([], primaryDocPosition)
  | layout :: rest, index, primaryDocPosition =>
    let group := placeOne config documentSecondaryExtent layout index primaryDocPosition
    let nextPosition := trailingEdge config group
    let result := placeGroups config documentSecondaryExtent rest (index + 1) nextPosition
    (group :: result.1, result.2)

/-- `getDocumentLayout(config)`. -/
def getDocumentLayout (config : Config) : Except LayoutError DocumentLayout :=
  match
    (if config.inBookLayout then
      getBookLayoutGroups config.manifest config.zoomLevel config.verticallyOriented
    else
      getSinglesLayoutGroups config.manifest config.zoomLevel) with
  | .error e => .error e
  | .ok layouts =>
    let documentSecondaryExtent := getExtentAlongSecondaryAxis layouts config
    let placed := placeGroups config documentSecondaryExtent layouts 0 0
    let height :=
      if config.verticallyOriented then placed.2 + config.padding.page.top
      else documentSecondaryExtent
    let width :=
      if config.verticallyOriented then documentSecondaryExtent
      else placed.2 + config.padding.page.left
    .ok { dimensions := { height := height, width := width }, pageGroups := placed.1 }

end Diva

namespace Diva

/-! ### Sample data used by the concrete witnesses and counterexamples -/

/-- A 100×200 page (at zoom level 0) marked `paged`. -/
def page100x200 : Page := { paged := true, d := [{ w := 100, h := 200 }] }

/-- A 10×10 page (at zoom level 0) marked `paged`. -/
def page10x10 : Page := { paged := true, d := [{ w := 10, h := 10 }] }

/-- A page whose dimension table is empty: every zoom level is invalid. -/
def pageNoZoom : Page := { paged := true, d := [] }

/-- Zero padding on every side. -/
def zeroPadding : PaddingConfig :=
  { page := { top := 0, left := 0 },
    document := { top := 0, right := 0, bottom := 0, left := 0 } }

end Diva

namespace Diva

/-- C7: `getFacingPageGroup` returns a group of height
`max(leftHeight, rightHeight)`; vertically oriented, its width is twice the
maximum page width, the left page is pushed against the central seam and the
right page starts at the seam; horizontally oriented, its width is the sum of
the page widths and the pages sit edge to edge; both pages get top-offset 0. -/
theorem getFacingPageGroup_spec (leftPage rightPage : PendingPage)
    (verticallyOriented : Bool) :
    (getFacingPageGroup leftPage rightPage verticallyOriented).height =
      max leftPage.height rightPage.height ∧
    (getFacingPageGroup leftPage rightPage verticallyOriented).width =
      (if verticallyOriented then 2 * max leftPage.width rightPage.width
       else leftPage.width + rightPage.width) ∧
    (getFacingPageGroup leftPage rightPage verticallyOriented).pageOffsets =
      (if verticallyOriented then
        [{ index := leftPage.index, top := 0,
           left := max leftPage.width rightPage.width - leftPage.width },
         { index := rightPage.index, top := 0,
           left := max leftPage.width rightPage.width }]
       else
        [{ index := leftPage.index, top := 0, left := 0 },
         { index := rightPage.index, top := 0, left := leftPage.width }]) := by
  cases verticallyOriented <;>
    simp [getFacingPageGroup, mul_comm]

/-- C8: the `round` flag of `getPageDimensions` has no observable effect, and
whenever the zoom-level lookup succeeds the returned components are the
integer floors of the raw dimensions. -/
theorem getPageDimensions_round_flag (pageIndex : ℕ) (manifest : Manifest)
    (zoomLevel : ℕ) :
    getPageDimensions pageIndex manifest zoomLevel false =
      getPageDimensions pageIndex manifest zoomLevel true ∧
    ∀ (page : Page) (pageData : PageData) (round : Bool),
      manifest.pages[pageIndex]? = some page →
      page.d[zoomLevel]? = some pageData →
      getPageDimensions pageIndex manifest zoomLevel round =
        .ok { width := (⌊pageData.w⌋ : ℚ), height := (⌊pageData.h⌋ : ℚ) } := by
  constructor
  · unfold getPageDimensions
    rcases hpage : manifest.pages[pageIndex]? with _ | page
    · rfl
    rcases hzoom : page.d[zoomLevel]? with _ | pageData
    · rfl
    simp
  · intro page pageData round hpage hzoom
    cases round <;> simp [getPageDimensions, hpage, hzoom]

/-- Witness for C8 at a concrete input: a one-page manifest whose page is
100×200 at zoom level 0. -/
theorem getPageDimensions_round_flag_witness :
    getPageDimensions 0 { pages := [page100x200], paged := false } 0 false =
      .ok { width := 100, height := 200 } := by
  have h := (getPageDimensions_round_flag 0 { pages := [page100x200], paged := false } 0).2
    page100x200 { w := 100, h := 200 } false (by rfl) (by rfl)
  rw [h]
  norm_num

end Diva

namespace Diva

/-- C9: an empty page sequence is a valid degenerate case: `getDocumentLayout`
succeeds, the page-group sequence is empty, and the dimensions consist only of
padding contributions. -/
theorem getDocumentLayout_empty_pages (config : Config)
    (h : config.manifest.pages = []) :
    getDocumentLayout config =
      .ok { dimensions :=
              { height :=
                  if config.verticallyOriented then config.padding.page.top
                  else config.padding.document.top + config.padding.document.bottom,
                width :=
                  if config.verticallyOriented then
                    config.padding.document.left + config.padding.document.right
                  else config.padding.page.left },
            pageGroups := [] } := by
  cases hbook : config.inBookLayout <;>
    cases hvert : config.verticallyOriented <;>
      simp [getDocumentLayout, getBookLayoutGroups, getSinglesLayoutGroups, singlesScan,
        bookScan, getExtentAlongSecondaryAxis, placeGroups, h, hbook, hvert]

/-- Witness for C9: a vertically-oriented configuration over an empty manifest
with nonzero padding everywhere. -/
theorem getDocumentLayout_empty_pages_witness :
    getDocumentLayout
      { inBookLayout := false, verticallyOriented := true,
        manifest := { pages := [], paged := false }, zoomLevel := 0,
        padding := { page := { top := 5, left := 7 },
                     document := { top := 1, right := 2, bottom := 3, left := 4 } } } =
      .ok { dimensions := { height := 5, width := 4 + 2 }, pageGroups := [] } := by
  have h := getDocumentLayout_empty_pages
    { inBookLayout := false, verticallyOriented := true,
      manifest := { pages := [], paged := false }, zoomLevel := 0,
      padding := { page := { top := 5, left := 7 },
                   document := { top := 1, right := 2, bottom := 3, left := 4 } } } (by rfl)
  rw [h]
  norm_num

/-- If some page at or after the scan position has no data at the requested
zoom level, the singles scan fails with `invalidZoomLevel`. -/
theorem singlesScan_invalidZoomLevel (manifest : Manifest) (zoomLevel : ℕ) :
    ∀ (l : List Page) (i i₀ : ℕ) (page : Page),
      (∀ j, manifest.pages[i + j]? = l[j]?) → i ≤ i₀ →
      manifest.pages[i₀]? = some page → page.d[zoomLevel]? = none →
      singlesScan manifest zoomLevel l i = .error .invalidZoomLevel
  | [], i, i₀, page, halign, hle, hpage, _ => by
    exfalso
    have h := halign (i₀ - i)
    rw [Nat.add_sub_cancel' hle] at h
    rw [hpage] at h
    simp at h
  | p :: rest, i, i₀, page, halign, hle, hpage, hzoom => by
    have hcur : manifest.pages[i]? = some p := by
      have h := halign 0
      simpa using h
    have halign' : ∀ j, manifest.pages[i + 1 + j]? = rest[j]? := by
      intro j
      have h := halign (j + 1)
      rw [show i + (j + 1) = i + 1 + j by omega] at h
      simpa using h
    rcases Nat.eq_or_lt_of_le hle with heq | hlt
    · subst heq
      rw [hpage] at hcur
      cases hcur
      simp [singlesScan, getPageDimensions, hpage, hzoom]
    · rcases hz : p.d[zoomLevel]? with _ | pd
      · simp [singlesScan, getPageDimensions, hcur, hz]
      · have hrec := singlesScan_invalidZoomLevel manifest zoomLevel rest (i + 1) i₀ page
          halign' hlt hpage hzoom
        simp [singlesScan, getPageDimensions, hcur, hz, hrec]

end Diva

namespace Diva

/-- If some page at or after the scan position is not skipped by the
paged/non-paged rule and has no data at the requested zoom level, the
book-mode scan fails with `invalidZoomLevel`, whatever the pending state. -/
theorem bookScan_invalidZoomLevel (manifest : Manifest) (zoomLevel : ℕ)
    (verticallyOriented : Bool) :
    ∀ (l : List Page) (i : ℕ) (st : Option PendingPage) (i₀ : ℕ) (page : Page),
      (∀ j, manifest.pages[i + j]? = l[j]?) → i ≤ i₀ →
      manifest.pages[i₀]? = some page → page.d[zoomLevel]? = none →
      (manifest.paged = false ∨ page.paged = true) →
      bookScan manifest zoomLevel verticallyOriented l i st = .error .invalidZoomLevel
  | [], i, st, i₀, page, halign, hle, hpage, _, _ => by
    exfalso
    have h := halign (i₀ - i)
    rw [Nat.add_sub_cancel' hle] at h
    rw [hpage] at h
    simp at h
  | p :: rest, i, st, i₀, page, halign, hle, hpage, hzoom, hskip => by
    have hcur : manifest.pages[i]? = some p := by
      have h := halign 0
      simpa using h
    have halign' : ∀ j, manifest.pages[i + 1 + j]? = rest[j]? := by
      intro j
      have h := halign (j + 1)
      rw [show i + (j + 1) = i + 1 + j by omega] at h
      simpa using h
    rcases Nat.eq_or_lt_of_le hle with heq | hlt
    · -- the scan has reached the failing page, which is not skipped
      subst heq
      have hpq : p = page := by
        rw [hpage] at hcur
        exact (Option.some_inj.mp hcur).symm
      have hnoskip : (manifest.paged && !p.paged) = false := by
        rcases hskip with h | h
        · simp [h]
        · simp [hpq, h]
      simp [bookScan, hnoskip, getPageDimensions, hpage, hzoom]
    · -- the failing page lies strictly further on: every branch recurses
      have hrec : ∀ st', bookScan manifest zoomLevel verticallyOriented rest (i + 1) st' =
          .error .invalidZoomLevel := fun st' =>
        bookScan_invalidZoomLevel manifest zoomLevel verticallyOriented rest (i + 1) st' i₀
          page halign' hlt hpage hzoom hskip
      by_cases hskipcur : (manifest.paged && !p.paged) = true
      · simp [bookScan, hskipcur, hrec]
      · rcases hz : p.d[zoomLevel]? with _ | pd
        · simp [bookScan, hskipcur, getPageDimensions, hcur, hz]
        · rcases st with _ | lp <;>
            by_cases hfirst : (verticallyOriented && i == 0) = true <;>
              simp [bookScan, hskipcur, getPageDimensions, hcur, hz, hfirst, hrec]

/-- C2: when a page's dimension table lacks the requested zoom level, the
dimension resolution fails with `invalidZoomLevel` (for either value of the
`round` flag), and — whenever the layout computation actually resolves that
page, i.e. in singles mode or when the page is not skipped by the
paged/non-paged rule — `getDocumentLayout` returns that error and no
layout. -/
theorem invalidZoomLevel_propagates (config : Config) (pageIndex : ℕ) (page : Page)
    (hpage : config.manifest.pages[pageIndex]? = some page)
    (hzoom : page.d[config.zoomLevel]? = none)
    (hskip : config.inBookLayout = false ∨
      (config.manifest.paged = false ∨ page.paged = true)) :
    (∀ round : Bool,
      getPageDimensions pageIndex config.manifest config.zoomLevel round =
        .error .invalidZoomLevel) ∧
    getDocumentLayout config = .error .invalidZoomLevel := by
  constructor
  · intro round
    simp [getPageDimensions, hpage, hzoom]
  · have halign : ∀ j, config.manifest.pages[0 + j]? = config.manifest.pages[j]? := by
      intro j
      rw [Nat.zero_add]
    cases hbook : config.inBookLayout
    · have h := singlesScan_invalidZoomLevel config.manifest config.zoomLevel
        config.manifest.pages 0 pageIndex page halign (Nat.zero_le _) hpage hzoom
      simp [getDocumentLayout, hbook, getSinglesLayoutGroups, h]
    · have hsk : config.manifest.paged = false ∨ page.paged = true := by
        rcases hskip with h | h
        · rw [hbook] at h
          cases h
        · exact h
      have h := bookScan_invalidZoomLevel config.manifest config.zoomLevel
        config.verticallyOriented config.manifest.pages 0 none pageIndex page halign
        (Nat.zero_le _) hpage hzoom hsk
      simp [getDocumentLayout, hbook, getBookLayoutGroups, h]

/-- Witness for C2: a one-page manifest whose page has an empty dimension
table, viewed in singles mode. -/
theorem invalidZoomLevel_propagates_witness :
    getPageDimensions 0 { pages := [pageNoZoom], paged := false } 0 true =
      .error .invalidZoomLevel ∧
    getDocumentLayout
      { inBookLayout := false, verticallyOriented := true,
        manifest := { pages := [pageNoZoom], paged := false }, zoomLevel := 0,
        padding := zeroPadding } = .error .invalidZoomLevel := by
  have h := invalidZoomLevel_propagates
    { inBookLayout := false, verticallyOriented := true,
      manifest := { pages := [pageNoZoom], paged := false }, zoomLevel := 0,
      padding := zeroPadding } 0 pageNoZoom (by rfl) (by rfl) (Or.inl rfl)
  exact ⟨h.1 true, h.2⟩

end Diva

namespace Diva

/-- Unfolding equation for the compositor loop on a non-empty group list. -/
theorem placeGroups_cons (config : Config) (E : ℚ) (layout : LayoutGroup)
    (rest : List LayoutGroup) (i : ℕ) (pos : ℚ) :
    placeGroups config E (layout :: rest) i pos =
      (placeOne config E layout i pos ::
         (placeGroups config E rest (i + 1)
           (trailingEdge config (placeOne config E layout i pos))).1,
       (placeGroups config E rest (i + 1)
         (trailingEdge config (placeOne config E layout i pos))).2) := by
  simp [placeGroups]

/-- A placed group's leading edge is the primary-axis position it was placed
at. -/
theorem placeOne_leadingEdge (config : Config) (E : ℚ) (layout : LayoutGroup)
    (i : ℕ) (pos : ℚ) :
    leadingEdge config (placeOne config E layout i pos) = pos := by
  cases hvert : config.verticallyOriented <;> simp [leadingEdge, placeOne, hvert]

/-- The first group placed by the compositor loop starts at the current
primary-axis position. -/
theorem placeGroups_head (config : Config) (E : ℚ) :
    ∀ (l : List LayoutGroup) (i : ℕ) (pos : ℚ) (g : PageGroup),
      (placeGroups config E l i pos).1.head? = some g →
      leadingEdge config g = pos
  | [], i, pos, g => by simp [placeGroups]
  | layout :: rest, i, pos, g => by
    intro h
    rw [placeGroups_cons] at h
    simp at h
    rw [← h]
    exact placeOne_leadingEdge config E layout i pos

/-- Adjacent groups placed by the compositor loop abut exactly along the
primary axis. -/
theorem placeGroups_chain (config : Config) (E : ℚ) :
    ∀ (l : List LayoutGroup) (i : ℕ) (pos : ℚ),
      List.Chain' (fun g₁ g₂ => trailingEdge config g₁ = leadingEdge config g₂)
        (placeGroups config E l i pos).1
  | [], i, pos => by simp [placeGroups]
  | layout :: rest, i, pos => by
    rw [placeGroups_cons]
    apply List.Chain'.cons'
    · exact placeGroups_chain config E rest (i + 1) _
    · intro y hy
      exact (placeGroups_head config E rest (i + 1) _ y hy).symm

/-- The compositor loop never drops a group: the placed list is empty exactly
when the layout list is. -/
theorem placeGroups_fst_eq_nil (config : Config) (E : ℚ) :
    ∀ (l : List LayoutGroup) (i : ℕ) (pos : ℚ),
      (placeGroups config E l i pos).1 = [] ↔ l = []
  | [], i, pos => by simp [placeGroups]
  | layout :: rest, i, pos => by rw [placeGroups_cons]; simp

/-- The final primary-axis position of the compositor loop is the trailing
edge of the last placed group. -/
theorem placeGroups_snd_last (config : Config) (E : ℚ) :
    ∀ (l : List LayoutGroup) (i : ℕ) (pos : ℚ) (g : PageGroup),
      (placeGroups config E l i pos).1.getLast? = some g →
      (placeGroups config E l i pos).2 = trailingEdge config g
  | [], i, pos, g => by simp [placeGroups]
  | layout :: rest, i, pos, g => by
    intro hlast
    rw [placeGroups_cons] at hlast ⊢
    rcases hrest : (placeGroups config E rest (i + 1)
        (trailingEdge config (placeOne config E layout i pos))).1 with _ | ⟨a, l'⟩
    · rw [hrest] at hlast
      simp at hlast
      have hnil : rest = [] := (placeGroups_fst_eq_nil config E rest (i + 1) _).mp hrest
      subst hnil
      simp [placeGroups, ← hlast]
    · rw [hrest] at hlast
      rw [List.getLast?_cons_cons] at hlast
      have h := placeGroups_snd_last config E rest (i + 1)
        (trailingEdge config (placeOne config E layout i pos)) g
      rw [hrest] at h
      exact h hlast

/-- Every group placed by the compositor loop is centered on the secondary
axis against the document secondary extent `E`. -/
theorem placeGroups_secondary (config : Config) (E : ℚ) :
    ∀ (l : List LayoutGroup) (i : ℕ) (pos : ℚ) (pg : PageGroup),
      pg ∈ (placeGroups config E l i pos).1 →
      (if config.verticallyOriented then pg.region.left = (E - pg.layout.width) / 2
       else pg.region.top = (E - pg.layout.height) / 2)
  | [], i, pos, pg => by simp [placeGroups]
  | layout :: rest, i, pos, pg => by
    intro hmem
    rw [placeGroups_cons] at hmem
    rcases List.mem_cons.mp hmem with rfl | hmem
    · cases hvert : config.verticallyOriented <;> simp [placeOne, hvert]
    · exact placeGroups_secondary config E rest (i + 1) _ pg hmem

end Diva

namespace Diva

/-- Destructuring a successful `getDocumentLayout` run: the groups are the
compositor's output over the grouping result, and the dimensions combine the
final primary position, the page padding and the secondary extent. -/
theorem getDocumentLayout_ok (config : Config) (r : DocumentLayout)
    (h : getDocumentLayout config = .ok r) :
    ∃ layouts,
      (if config.inBookLayout then
        getBookLayoutGroups config.manifest config.zoomLevel config.verticallyOriented
       else getSinglesLayoutGroups config.manifest config.zoomLevel) = .ok layouts ∧
      r.pageGroups =
        (placeGroups config (getExtentAlongSecondaryAxis layouts config) layouts 0 0).1 ∧
      r.dimensions.height =
        (if config.verticallyOriented then
          (placeGroups config (getExtentAlongSecondaryAxis layouts config) layouts 0 0).2 +
            config.padding.page.top
         else getExtentAlongSecondaryAxis layouts config) ∧
      r.dimensions.width =
        (if config.verticallyOriented then getExtentAlongSecondaryAxis layouts config
         else (placeGroups config (getExtentAlongSecondaryAxis layouts config) layouts 0 0).2 +
            config.padding.page.left) := by
  rcases hL : (if config.inBookLayout then
      getBookLayoutGroups config.manifest config.zoomLevel config.verticallyOriented
     else getSinglesLayoutGroups config.manifest config.zoomLevel) with e | layouts
  · unfold getDocumentLayout at h
    rw [hL] at h
    simp at h
  · unfold getDocumentLayout at h
    rw [hL] at h
    simp only [Except.ok.injEq] at h
    refine ⟨layouts, rfl, ?_, ?_, ?_⟩ <;> rw [← h]

/-- C5: the regions of the page groups produced by `getDocumentLayout` never
overlap along the primary axis — each group's trailing edge (bottom when
vertically oriented, right otherwise) equals the next group's leading edge
(top, respectively left). -/
theorem regions_abut (config : Config) (r : DocumentLayout)
    (h : getDocumentLayout config = .ok r) :
    List.Chain' (fun g₁ g₂ => trailingEdge config g₁ = leadingEdge config g₂)
      r.pageGroups := by
  obtain ⟨layouts, -, hpg, -, -⟩ := getDocumentLayout_ok config r h
  rw [hpg]
  exact placeGroups_chain config _ layouts 0 0

/-- C6 (amended): for every placed group, twice its secondary-axis offset plus
its secondary dimension equals the secondary extent itself (the document
padding is *not* subtracted), exactly. -/
theorem centering_invariant_amended (config : Config) (r : DocumentLayout)
    (h : getDocumentLayout config = .ok r) (pg : PageGroup)
    (hm : pg ∈ r.pageGroups) :
    (if config.verticallyOriented then
      2 * pg.region.left + pg.layout.width = r.dimensions.width
     else
      2 * pg.region.top + pg.layout.height = r.dimensions.height) := by
  obtain ⟨layouts, -, hpg, hh, hw⟩ := getDocumentLayout_ok config r h
  rw [hpg] at hm
  have hsec := placeGroups_secondary config
    (getExtentAlongSecondaryAxis layouts config) layouts 0 0 pg hm
  cases hvert : config.verticallyOriented
  · rw [hvert] at hsec hh
    simp only [if_false, Bool.false_eq_true] at hsec hh ⊢
    rw [hsec, hh]
    ring
  · rw [hvert] at hsec hw
    simp only [if_true] at hsec hw ⊢
    rw [hsec, hw]
    ring

/-- C1 (amended): the overall extent along the primary axis equals the last
group's trailing edge plus the *page-level* leading padding on that axis
(`padding.page.top` when vertically oriented, `padding.page.left` otherwise),
and the extent along the secondary axis equals the value computed by
`getExtentAlongSecondaryAxis`. -/
theorem document_extent_amended (config : Config) (layouts : List LayoutGroup)
    (hl : (if config.inBookLayout then
            getBookLayoutGroups config.manifest config.zoomLevel config.verticallyOriented
           else getSinglesLayoutGroups config.manifest config.zoomLevel) = .ok layouts)
    (r : DocumentLayout) (hr : getDocumentLayout config = .ok r)
    (g : PageGroup) (hg : r.pageGroups.getLast? = some g) :
    (if config.verticallyOriented then
      r.dimensions.height = trailingEdge config g + config.padding.page.top ∧
      r.dimensions.width = getExtentAlongSecondaryAxis layouts config
     else
      r.dimensions.width = trailingEdge config g + config.padding.page.left ∧
      r.dimensions.height = getExtentAlongSecondaryAxis layouts config) := by
  obtain ⟨layouts', hl', hpg, hh, hw⟩ := getDocumentLayout_ok config r hr
  rw [hl] at hl'
  injection hl' with hE
  subst hE
  rw [hpg] at hg
  have hfin := placeGroups_snd_last config
    (getExtentAlongSecondaryAxis layouts config) layouts 0 0 g hg
  cases hvert : config.verticallyOriented
  · rw [hvert] at hh hw
    simp only [if_false, Bool.false_eq_true] at hh hw ⊢
    exact ⟨by rw [hw, hfin], hh⟩
  · rw [hvert] at hh hw
    simp only [if_true] at hh hw ⊢
    exact ⟨by rw [hh, hfin], hw⟩

end Diva

namespace Diva

/-- Two 10×10 pages, singles mode, vertical, zero padding. -/
def twoPageConfig : Config :=
  { inBookLayout := false, verticallyOriented := true,
    manifest := { pages := [page10x10, page10x10], paged := false }, zoomLevel := 0,
    padding := zeroPadding }

/-- The layout `getDocumentLayout` computes for `twoPageConfig`. -/
def twoPageResult : DocumentLayout :=
  { dimensions := { width := 10, height := 20 },
    pageGroups :=
      [{ index := 0,
         layout := { height := 10, width := 10,
                     pageOffsets := [{ index := 0, top := 0, left := 0 }] },
         region := { top := 0, bottom := 10, left := 0, right := 10 },
         padding := { top := 0, left := 0 } },
       { index := 1,
         layout := { height := 10, width := 10,
                     pageOffsets := [{ index := 1, top := 0, left := 0 }] },
         region := { top := 10, bottom := 20, left := 0, right := 10 },
         padding := { top := 0, left := 0 } }] }

/-- Witness for C5: the two placed groups of `twoPageConfig` abut at
position 10. -/
theorem regions_abut_witness :
    List.Chain' (fun g₁ g₂ => trailingEdge twoPageConfig g₁ = leadingEdge twoPageConfig g₂)
      twoPageResult.pageGroups :=
  regions_abut twoPageConfig twoPageResult
    (by norm_num [getDocumentLayout, twoPageConfig, twoPageResult, getSinglesLayoutGroups,
      singlesScan, getPageDimensions, page10x10, zeroPadding, getExtentAlongSecondaryAxis,
      placeGroups, placeOne, trailingEdge])

/-- One 10×10 page, singles mode, vertical, horizontal document padding
3 (left) and 4 (right): the secondary extent is 17 and the single group is
placed at `left = 7/2`. -/
def paddedConfig : Config :=
  { inBookLayout := false, verticallyOriented := true,
    manifest := { pages := [page10x10], paged := false }, zoomLevel := 0,
    padding := { page := { top := 0, left := 0 },
                 document := { top := 0, right := 4, bottom := 0, left := 3 } } }

/-- The layout `getDocumentLayout` computes for `paddedConfig`. -/
def paddedResult : DocumentLayout :=
  { dimensions := { width := 17, height := 10 },
    pageGroups :=
      [{ index := 0,
         layout := { height := 10, width := 10,
                     pageOffsets := [{ index := 0, top := 0, left := 0 }] },
         region := { top := 0, bottom := 10, left := 7 / 2, right := 27 / 2 },
         padding := { top := 0, left := 0 } }] }

/-- The single page group of `paddedResult`. -/
def paddedGroup : PageGroup :=
  { index := 0,
    layout := { height := 10, width := 10,
                pageOffsets := [{ index := 0, top := 0, left := 0 }] },
    region := { top := 0, bottom := 10, left := 7 / 2, right := 27 / 2 },
    padding := { top := 0, left := 0 } }

/-- Counterexample to C6 as stated: with document padding 3 + 4 on the
secondary axis, `2 * secondaryOffset + groupSecondaryDim` is the full
secondary extent 17, not the extent minus the padding (10). -/
theorem centering_claim_counterexample :
    (getDocumentLayout paddedConfig).map
      (fun r => r.pageGroups.map (fun pg => 2 * pg.region.left + pg.layout.width)) =
      .ok [17] ∧
    (getDocumentLayout paddedConfig).map
      (fun r => r.dimensions.width -
        (paddedConfig.padding.document.left + paddedConfig.padding.document.right)) =
      .ok 10 ∧
    (17 : ℚ) ≠ 10 := by
  refine ⟨?_, ?_, by norm_num⟩ <;>
    norm_num [getDocumentLayout, paddedConfig, getSinglesLayoutGroups, singlesScan,
      getPageDimensions, page10x10, getExtentAlongSecondaryAxis, placeGroups, placeOne,
      trailingEdge, Except.map]

/-- Witness for the amended C6 at `paddedConfig`: `2 * (7/2) + 10 = 17`, the
full secondary extent. -/
theorem centering_invariant_amended_witness :
    (if paddedConfig.verticallyOriented then
      2 * paddedGroup.region.left + paddedGroup.layout.width = paddedResult.dimensions.width
     else
      2 * paddedGroup.region.top + paddedGroup.layout.height = paddedResult.dimensions.height) :=
  centering_invariant_amended paddedConfig paddedResult
    (by norm_num [getDocumentLayout, paddedConfig, paddedResult, getSinglesLayoutGroups,
      singlesScan, getPageDimensions, page10x10, getExtentAlongSecondaryAxis,
      placeGroups, placeOne, trailingEdge])
    paddedGroup
    (by norm_num [paddedResult, paddedGroup])

end Diva

namespace Diva

/-- One 10×10 page, singles mode, vertical; page padding (top 1, left 2)
differs from document padding (top 5, right 4, bottom 6, left 3). -/
def distinctPaddingConfig : Config :=
  { inBookLayout := false, verticallyOriented := true,
    manifest := { pages := [page10x10], paged := false }, zoomLevel := 0,
    padding := { page := { top := 1, left := 2 },
                 document := { top := 5, right := 4, bottom := 6, left := 3 } } }

/-- The grouping result for `distinctPaddingConfig`. -/
def distinctPaddingLayouts : List LayoutGroup :=
  [{ height := 10, width := 10, pageOffsets := [{ index := 0, top := 0, left := 0 }] }]

/-- The layout `getDocumentLayout` computes for `distinctPaddingConfig`. -/
def distinctPaddingResult : DocumentLayout :=
  { dimensions := { width := 17, height := 12 },
    pageGroups :=
      [{ index := 0,
         layout := { height := 10, width := 10,
                     pageOffsets := [{ index := 0, top := 0, left := 0 }] },
         region := { top := 0, bottom := 11, left := 7 / 2, right := 31 / 2 },
         padding := { top := 1, left := 2 } }] }

/-- The single page group of `distinctPaddingResult`. -/
def distinctPaddingGroup : PageGroup :=
  { index := 0,
    layout := { height := 10, width := 10,
                pageOffsets := [{ index := 0, top := 0, left := 0 }] },
    region := { top := 0, bottom := 11, left := 7 / 2, right := 31 / 2 },
    padding := { top := 1, left := 2 } }

/-- Counterexample to C1 as stated: the primary extent is the final cursor
(11) plus the *page* top padding (1), i.e. 12 — not the final cursor plus the
*document* top padding (11 + 5 = 16). -/
theorem document_extent_claim_counterexample :
    (getDocumentLayout distinctPaddingConfig).map (fun r => r.dimensions.height) = .ok 12 ∧
    (getDocumentLayout distinctPaddingConfig).map
      (fun r => r.pageGroups.getLast?.map
        (fun g => trailingEdge distinctPaddingConfig g +
          distinctPaddingConfig.padding.document.top)) = .ok (some 16) ∧
    (12 : ℚ) ≠ 16 := by
  refine ⟨?_, ?_, by norm_num⟩ <;>
    norm_num [getDocumentLayout, distinctPaddingConfig, getSinglesLayoutGroups, singlesScan,
      getPageDimensions, page10x10, getExtentAlongSecondaryAxis, placeGroups, placeOne,
      trailingEdge, Except.map]

/-- Witness for the amended C1 at `distinctPaddingConfig`: height 12 is the
last trailing edge 11 plus the page top padding 1, and width 17 is the
secondary extent. -/
theorem document_extent_amended_witness :
    (if distinctPaddingConfig.verticallyOriented then
      distinctPaddingResult.dimensions.height =
        trailingEdge distinctPaddingConfig distinctPaddingGroup +
          distinctPaddingConfig.padding.page.top ∧
      distinctPaddingResult.dimensions.width =
        getExtentAlongSecondaryAxis distinctPaddingLayouts distinctPaddingConfig
     else
      distinctPaddingResult.dimensions.width =
        trailingEdge distinctPaddingConfig distinctPaddingGroup +
          distinctPaddingConfig.padding.page.left ∧
      distinctPaddingResult.dimensions.height =
        getExtentAlongSecondaryAxis distinctPaddingLayouts distinctPaddingConfig) :=
  document_extent_amended distinctPaddingConfig distinctPaddingLayouts
    (by norm_num [distinctPaddingConfig, distinctPaddingLayouts, getSinglesLayoutGroups,
      singlesScan, getPageDimensions, page10x10])
    distinctPaddingResult
    (by norm_num [getDocumentLayout, distinctPaddingConfig, distinctPaddingResult,
      getSinglesLayoutGroups, singlesScan, getPageDimensions, page10x10,
      getExtentAlongSecondaryAxis, placeGroups, placeOne, trailingEdge])
    distinctPaddingGroup
    (by norm_num [distinctPaddingResult, distinctPaddingGroup])

end Diva

namespace Diva

/-- The spec's worked example: three 100×200 pages, book mode, vertical
orientation, document padding 10 (left) and 20 (right). -/
def threePageConfig : Config :=
  { inBookLayout := true, verticallyOriented := true,
    manifest := { pages := [page100x200, page100x200, page100x200], paged := false },
    zoomLevel := 0,
    padding := { page := { top := 0, left := 0 },
                 document := { top := 0, right := 20, bottom := 0, left := 10 } } }

/-- Counterexample to C4 as stated: the worked example produces two page
groups, not three (page 0's standalone group plus the 1–2 spread). -/
theorem three_page_example_counterexample :
    (getDocumentLayout threePageConfig).map (fun r => r.pageGroups.length) = .ok 2 ∧
    (2 : ℕ) ≠ 3 := by
  refine ⟨?_, by norm_num⟩
  norm_num [getDocumentLayout, threePageConfig, getBookLayoutGroups, bookScan,
    getPageDimensions, page100x200, getFacingPageGroup, getExtentAlongSecondaryAxis,
    placeGroups, placeOne, trailingEdge, Except.map]

/-- C4 (amended): in the worked example, page 0 is emitted standalone as a
200×200 group flush right (offset left = 100), pages 1 and 2 are paired into
one 200×200 group with seam-centered offsets 0 and 100, the overall width is
the secondary extent 200 plus the document's left and right padding, and the
result contains two page groups in total. -/
theorem three_page_example_amended :
    (getDocumentLayout threePageConfig).map (fun r => r.pageGroups.map PageGroup.layout) =
      .ok [{ height := 200, width := 200,
             pageOffsets := [{ index := 0, top := 0, left := 100 }] },
           { height := 200, width := 200,
             pageOffsets := [{ index := 1, top := 0, left := 0 },
                             { index := 2, top := 0, left := 100 }] }] ∧
    (getDocumentLayout threePageConfig).map (fun r => r.dimensions.width) =
      .ok (200 + threePageConfig.padding.document.left +
        threePageConfig.padding.document.right) ∧
    (getDocumentLayout threePageConfig).map (fun r => r.pageGroups.length) = .ok 2 := by
  refine ⟨?_, ?_, ?_⟩ <;>
    norm_num [getDocumentLayout, threePageConfig, getBookLayoutGroups, bookScan,
      getPageDimensions, page100x200, getFacingPageGroup, getExtentAlongSecondaryAxis,
      placeGroups, placeOne, trailingEdge, Except.map]

end Diva

namespace Diva

/-- In horizontal orientation with no page skipped, the book scan pairs the
pages two by two: from an empty pending state an even-length remainder yields
one group per two pages, from a pending left page an odd-length remainder
completes it and pairs the rest; every emitted group holds exactly the two
consecutive indices `[k, k+1]`. -/
theorem bookScan_pairs (manifest : Manifest) (zoomLevel : ℕ)
    (hpaged : manifest.paged = false) :
    ∀ (l : List Page) (i : ℕ),
      (∀ groups, bookScan manifest zoomLevel false l i none = .ok groups →
        l.length % 2 = 0 →
        groups.length * 2 = l.length ∧
        ∀ g ∈ groups, ∃ k, g.pageOffsets.map PageOffset.index = [k, k + 1]) ∧
      (∀ lp groups, bookScan manifest zoomLevel false l i (some lp) = .ok groups →
        lp.index + 1 = i → l.length % 2 = 1 →
        groups.length * 2 = l.length + 1 ∧
        ∀ g ∈ groups, ∃ k, g.pageOffsets.map PageOffset.index = [k, k + 1])
  | [], i => by
    constructor
    · intro groups h _
      simp only [bookScan, Except.ok.injEq] at h
      subst h
      simp
    · intro lp groups _ _ hodd
      simp at hodd
  | p :: rest, i => by
    have IH := bookScan_pairs manifest zoomLevel hpaged rest (i + 1)
    constructor
    · intro groups h heven
      simp only [bookScan, hpaged, Bool.false_and, Bool.false_eq_true, if_false,
        ite_false] at h
      rcases hd : getPageDimensions i manifest zoomLevel false with e | pd <;> rw [hd] at h
      · cases h
      · have hlen : rest.length % 2 = 1 := by
          simp at heven
          omega
        have hres := IH.2 { index := i, width := pd.width, height := pd.height }
          groups h rfl hlen
        have h1 := hres.1
        refine ⟨?_, hres.2⟩
        simp only [List.length_cons]
        omega
    · intro lp groups h hlpi hodd
      simp only [bookScan, hpaged, Bool.false_and, Bool.false_eq_true, if_false,
        ite_false] at h
      rcases hd : getPageDimensions i manifest zoomLevel false with e | pd <;> rw [hd] at h
      · cases h
      · rcases hrec : bookScan manifest zoomLevel false rest (i + 1) none with e | gs <;>
          rw [hrec] at h
        · cases h
        · simp only [Except.ok.injEq] at h
          subst h
          have hlen : rest.length % 2 = 0 := by
            simp at hodd
            omega
          have hres := IH.1 gs hrec hlen
          constructor
          · simp only [List.length_cons]
            omega
          · intro g hg
            rcases List.mem_cons.mp hg with rfl | hg'
            · refine ⟨lp.index, ?_⟩
              simp [getFacingPageGroup, hlpi]
            · exact hres.2 g hg'

end Diva

namespace Diva

/-- C3 (amended): in *horizontal* orientation, for a book-mode manifest with
`paged = false` and an even number of pages, `getBookLayoutGroups` produces
exactly `pages/2` groups, each holding exactly two page offsets with
consecutive indices. -/
theorem book_even_pairs_horizontal (manifest : Manifest) (zoomLevel : ℕ)
    (groups : List LayoutGroup) (hpaged : manifest.paged = false)
    (h : getBookLayoutGroups manifest zoomLevel false = .ok groups)
    (heven : manifest.pages.length % 2 = 0) :
    groups.length = manifest.pages.length / 2 ∧
    ∀ g ∈ groups, ∃ k, g.pageOffsets.map PageOffset.index = [k, k + 1] := by
  have hres := (bookScan_pairs manifest zoomLevel hpaged manifest.pages 0).1 groups h heven
  exact ⟨by omega, hres.2⟩

/-- A two-page manifest with no non-paged page. -/
def twoPageManifest : Manifest := { pages := [page10x10, page10x10], paged := false }

/-- The single spread `getBookLayoutGroups` emits for `twoPageManifest` in
horizontal orientation. -/
def twoPagePaired : List LayoutGroup :=
  [{ height := 10, width := 20,
     pageOffsets := [{ index := 0, top := 0, left := 0 },
                     { index := 1, top := 0, left := 10 }] }]

/-- Witness for the amended C3: two pages, horizontal orientation — one group
holding offsets with indices 0 and 1. -/
theorem book_even_pairs_horizontal_witness :
    twoPagePaired.length = twoPageManifest.pages.length / 2 ∧
    ∀ g ∈ twoPagePaired, ∃ k, g.pageOffsets.map PageOffset.index = [k, k + 1] :=
  book_even_pairs_horizontal twoPageManifest 0 twoPagePaired (by rfl)
    (by norm_num [getBookLayoutGroups, bookScan, twoPageManifest, twoPagePaired,
      getPageDimensions, page10x10, getFacingPageGroup])
    (by norm_num [twoPageManifest])

/-- Counterexample to C3 as stated: with *vertical* orientation the same
two-page manifest yields two groups (the standalone first page and the flushed
trailing page), not `2/2 = 1`. -/
theorem book_even_pairs_claim_counterexample :
    (getBookLayoutGroups twoPageManifest 0 true).map List.length = .ok 2 ∧
    (2 : ℕ) ≠ 2 / 2 := by
  refine ⟨?_, by norm_num⟩
  norm_num [getBookLayoutGroups, bookScan, twoPageManifest, getPageDimensions,
    page10x10, getFacingPageGroup, Except.map]

end Diva

namespace Diva

/-- All page indices referenced by a list of layout groups, in emission
order (group by group, offsets in order within each group). -/
def groupIndices (groups : List LayoutGroup) : List ℕ :=
  groups.flatMap (fun g => g.pageOffsets.map PageOffset.index)

/-- The two offsets of a facing-page group reference the left and the right
page, in that order, for either orientation. -/
theorem getFacingPageGroup_indices (leftPage rightPage : PendingPage) (vo : Bool) :
    (getFacingPageGroup leftPage rightPage vo).pageOffsets.map PageOffset.index =
      [leftPage.index, rightPage.index] := by
  cases vo <;> simp [getFacingPageGroup]

/-- Invariant of the book-mode scan: starting at index `i` with a pending page
older than `i`, the emitted groups reference strictly increasing page indices,
each of which is the pending page or a page of the manifest at or after `i`
that the paged/non-paged rule does not skip. -/
theorem bookScan_indices (manifest : Manifest) (zoomLevel : ℕ) (vo : Bool) :
    ∀ (l : List Page) (i : ℕ) (st : Option PendingPage) (groups : List LayoutGroup),
      (∀ j, manifest.pages[i + j]? = l[j]?) →
      (∀ lp, st = some lp → lp.index < i) →
      bookScan manifest zoomLevel vo l i st = .ok groups →
      List.Pairwise (· < ·) (groupIndices groups) ∧
      ∀ k ∈ groupIndices groups,
        (∃ lp, st = some lp ∧ k = lp.index) ∨
        (i ≤ k ∧ ∃ p, manifest.pages[k]? = some p ∧
          (manifest.paged = false ∨ p.paged = true))
  | [], i, none, groups, _, _, h => by
    simp only [bookScan, Except.ok.injEq] at h
    subst h
    simp [groupIndices]
  | [], i, some lp, groups, _, _, h => by
    simp only [bookScan, Except.ok.injEq] at h
    subst h
    constructor
    · simp [groupIndices]
    · intro k hk
      simp [groupIndices] at hk
      exact Or.inl ⟨lp, rfl, hk⟩
  | p :: rest, i, st, groups, halign, hst, h => by
    have hcur : manifest.pages[i]? = some p := by
      have hh := halign 0
      simpa using hh
    have halign' : ∀ j, manifest.pages[i + 1 + j]? = rest[j]? := by
      intro j
      have hh := halign (j + 1)
      rw [show i + (j + 1) = i + 1 + j by omega] at hh
      simpa using hh
    by_cases hskip : (manifest.paged && !p.paged) = true
    · -- the current page is skipped: recurse with everything unchanged
      rw [bookScan, if_pos hskip] at h
      have hres := bookScan_indices manifest zoomLevel vo rest (i + 1) st groups halign'
        (fun lp hlp => Nat.lt_succ_of_lt (hst lp hlp)) h
      refine ⟨hres.1, fun k hk => ?_⟩
      rcases hres.2 k hk with hl | ⟨hle, hp⟩
      · exact Or.inl hl
      · exact Or.inr ⟨by omega, hp⟩
    · have hps : manifest.paged = false ∨ p.paged = true := by
        revert hskip
        cases manifest.paged <;> cases p.paged <;> simp
      rw [bookScan, if_neg hskip] at h
      rcases hd : getPageDimensions i manifest zoomLevel false with e | pd <;> rw [hd] at h
      · cases h
      · dsimp only at h
        by_cases hfirst : (vo && i == 0) = true
        · -- standalone first page, emitted in front of the recursion's groups
          have hi0 : i = 0 := by
            simp only [Bool.and_eq_true, beq_iff_eq] at hfirst
            exact hfirst.2
          rw [if_pos hfirst] at h
          rcases hrec : bookScan manifest zoomLevel vo rest (i + 1) st with e | gs <;>
            rw [hrec] at h
          · cases h
          · simp only [Except.ok.injEq] at h
            subst h
            have hres := bookScan_indices manifest zoomLevel vo rest (i + 1) st gs halign'
              (fun lp hlp => Nat.lt_succ_of_lt (hst lp hlp)) hrec
            have hflat : groupIndices
                ({ height := pd.height, width := pd.width * 2,
                   pageOffsets := [{ index := 0, top := 0, left := pd.width }] } :: gs) =
                0 :: groupIndices gs := by
              simp [groupIndices]
            rw [hflat]
            constructor
            · rw [List.pairwise_cons]
              refine ⟨fun k hk => ?_, hres.1⟩
              rcases hres.2 k hk with ⟨lp, hlp, hklp⟩ | ⟨hle, -⟩
              · have := hst lp hlp
                omega
              · omega
            · intro k hk
              rcases List.mem_cons.mp hk with rfl | hk'
              · exact Or.inr ⟨by omega, p, hi0 ▸ hcur, hps⟩
              · rcases hres.2 k hk' with hl | ⟨hle, hp⟩
                · exact Or.inl hl
                · exact Or.inr ⟨by omega, hp⟩
        · rw [if_neg hfirst] at h
          rcases st with _ | lp
          · -- no pending page: the current page becomes pending
            have hres := bookScan_indices manifest zoomLevel vo rest (i + 1)
              (some { index := i, width := pd.width, height := pd.height }) groups halign'
              (fun lp hlp => by cases hlp; exact Nat.lt_succ_self i) h
            refine ⟨hres.1, fun k hk => ?_⟩
            rcases hres.2 k hk with ⟨lp, hlp, hklp⟩ | ⟨hle, hp⟩
            · have hlpv : ({ index := i, width := pd.width, height := pd.height } :
                  PendingPage) = lp := Option.some_inj.mp hlp
              have hki : k = i := by rw [hklp, ← hlpv]
              exact Or.inr ⟨by omega, p, by rw [hki]; exact hcur, hps⟩
            · exact Or.inr ⟨by omega, hp⟩
          · -- pending page present: emit the facing-page group
            rcases hrec : bookScan manifest zoomLevel vo rest (i + 1) none with e | gs <;>
              rw [hrec] at h
            · cases h
            · simp only [Except.ok.injEq] at h
              subst h
              have hres := bookScan_indices manifest zoomLevel vo rest (i + 1) none gs halign'
                (fun lp hlp => by cases hlp) hrec
              have hlpi : lp.index < i := hst lp rfl
              have hrest : ∀ k ∈ groupIndices gs, i + 1 ≤ k := by
                intro k hk
                rcases hres.2 k hk with ⟨lp', hlp', -⟩ | ⟨hle, -⟩
                · cases hlp'
                · exact hle
              have hflat : groupIndices
                  (getFacingPageGroup lp { index := i, width := pd.width, height := pd.height }
                    vo :: gs) = lp.index :: i :: groupIndices gs := by
                simp [groupIndices, getFacingPageGroup_indices]
              rw [hflat]
              constructor
              · rw [List.pairwise_cons]
                constructor
                · intro k hk
                  rcases List.mem_cons.mp hk with rfl | hk'
                  · exact hlpi
                  · have := hrest k hk'
                    omega
                · rw [List.pairwise_cons]
                  refine ⟨fun k hk => ?_, hres.1⟩
                  have := hrest k hk
                  omega
              · intro k hk
                rcases List.mem_cons.mp hk with rfl | hk'
                · exact Or.inl ⟨lp, rfl, rfl⟩
                · rcases List.mem_cons.mp hk' with rfl | hk''
                  · exact Or.inr ⟨Nat.le_refl _, p, hcur, hps⟩
                  · rcases hres.2 k hk'' with ⟨lp', hlp', -⟩ | ⟨hle, hp⟩
                    · cases hlp'
                    · exact Or.inr ⟨by omega, hp⟩

end Diva

namespace Diva

/-- C10: in book mode the page indices referenced by the emitted groups are
strictly increasing in manifest order (within a group and across groups), and
every referenced index belongs to a manifest page that the paged/non-paged
rule does not skip. -/
theorem book_layout_indices_monotone (manifest : Manifest) (zoomLevel : ℕ)
    (verticallyOriented : Bool) (groups : List LayoutGroup)
    (h : getBookLayoutGroups manifest zoomLevel verticallyOriented = .ok groups) :
    List.Pairwise (· < ·) (groupIndices groups) ∧
    ∀ k ∈ groupIndices groups, ∃ p, manifest.pages[k]? = some p ∧
      (manifest.paged = false ∨ p.paged = true) := by
  have hres := bookScan_indices manifest zoomLevel verticallyOriented manifest.pages 0
    none groups (fun j => by rw [Nat.zero_add]) (fun lp hlp => by cases hlp) h
  refine ⟨hres.1, fun k hk => ?_⟩
  rcases hres.2 k hk with ⟨lp, hlp, -⟩ | ⟨-, hp⟩
  · cases hlp
  · exact hp

/-- The groups `getBookLayoutGroups` emits for `twoPageManifest` in vertical
orientation: the standalone first page and the flushed trailing page. -/
def twoPageVerticalGroups : List LayoutGroup :=
  [{ height := 10, width := 20, pageOffsets := [{ index := 0, top := 0, left := 10 }] },
   { height := 10, width := 20, pageOffsets := [{ index := 1, top := 0, left := 0 }] }]

/-- Witness for C10 at `twoPageManifest`, vertical orientation: the referenced
indices `[0, 1]` are strictly increasing and none is skipped. -/
theorem book_layout_indices_monotone_witness :
    List.Pairwise (· < ·) (groupIndices twoPageVerticalGroups) ∧
    ∀ k ∈ groupIndices twoPageVerticalGroups, ∃ p, twoPageManifest.pages[k]? = some p ∧
      (twoPageManifest.paged = false ∨ p.paged = true) :=
  book_layout_indices_monotone twoPageManifest 0 true twoPageVerticalGroups
    (by norm_num [getBookLayoutGroups, bookScan, twoPageManifest, twoPageVerticalGroups,
      getPageDimensions, page10x10])

end Diva
